import Mathlib

/-!
Verification of the recurring in-memory record-store pattern of the
Server-Architecture-Notes tutorial snapshots (03/06/10/12), embedded
shallowly from the Python sources.

Python dictionaries are modelled as insertion-ordered association lists
(`List (κ × α)`) with dict semantics: assignment to an existing key
updates it in place, assignment to a fresh key appends, deletion removes
the key.  `HTTPException` carries the status code and detail string.
Floating-point prices only ever flow through storage and equality here,
so they are represented as rationals.
-/

set_option autoImplicit false

namespace ServerNotes

/-- A JSON-ish value, used to model the serialized response bodies so that
claims about which field *names* appear in a body can be stated. -/
inductive JsonValue where
  | jstr (s : String)
  | jnum (q : Rat)
  | jint (n : Nat)
  | jnull
  | jarr (vs : List JsonValue)

/-- Model of fastapi.HTTPException: a status code plus a detail message. -/
structure HTTPException where
  status_code : Nat
  detail : String
deriving DecidableEq, Repr

/-- Python dict lookup `db[k]` / `db.get(k)` on an association list. -/
def dbGet {κ α : Type} [DecidableEq κ] (db : List (κ × α)) (k : κ) : Option α :=
  match db with
  | [] => none
  | (k2, v) :: rest => if k2 = k then some v else dbGet rest k

/-- Python membership test `k in db`. -/
def dbContains {κ α : Type} [DecidableEq κ] (db : List (κ × α)) (k : κ) : Bool :=
  match db with
  | [] => false
  | (k2, _) :: rest => if k2 = k then true else dbContains rest k

/-- Python dict assignment `db[k] = v`: updates the existing entry in place,
otherwise appends at the end (insertion order preserved). -/
def dbInsert {κ α : Type} [DecidableEq κ] (db : List (κ × α)) (k : κ) (v : α) :
    List (κ × α) :=
  match db with
  | [] => [(k, v)]
  | (k2, v2) :: rest =>
      if k2 = k then (k, v) :: rest else (k2, v2) :: dbInsert rest k v

/-- Python `del db[k]`: removes the entry with key `k` (no tombstones). -/
def dbErase {κ α : Type} [DecidableEq κ] (db : List (κ × α)) (k : κ) :
    List (κ × α) :=
  match db with
  | [] => []
  | (k2, v2) :: rest =>
      if k2 = k then rest else (k2, v2) :: dbErase rest k

/-! ## Snapshot 12: items with id-counter create, delete, update -/

/-- The pydantic `Item` model of snapshot 12: `name: str`, `price: float`. -/
structure Item12 where
  name : String
  price : Rat
deriving DecidableEq, Repr

/-- The module-level mutable state of snapshot 12: the fake database
dictionary `items_db` and the counter `item_next_id`. -/
structure State12 where
  items_db : List (Nat × Item12)
  item_next_id : Nat
deriving DecidableEq, Repr

/-- Initial state of snapshot 12: `items_db` pre-seeded with ids 1 and 2,
`item_next_id = 3`. -/
def initState12 : State12 :=
  { items_db := [(1, { name := "Laptop", price := 1200 }),
                 (2, { name := "Keyboard", price := 75 })],
    item_next_id := 3 }

/-- The dict `{"id": item_next_id, **item.model_dump()}` the snapshot-12
create handler builds and returns. -/
structure CreatedInfo12 where
  id : Nat
  name : String
  price : Rat
deriving DecidableEq, Repr

/-- Snapshot 12 `create_item`: stores `item.model_dump()` at `item_next_id`,
builds `created_item_info`, then increments the counter.  Never fails. -/
def create_item (item : Item12) (s : State12) : CreatedInfo12 × State12 :=
  let db2 := dbInsert s.items_db s.item_next_id item
  let info : CreatedInfo12 :=
    { id := s.item_next_id, name := item.name, price := item.price }
  (info, { items_db := db2, item_next_id := s.item_next_id + 1 })

/-- The `status_code=status.HTTP_201_CREATED` of the snapshot-12 create route. -/
def create_item12_status : Nat := 201

/-- The `response_model=Item` filtering on the snapshot-12 create route:
the returned dict is projected onto the declared `Item` fields, which
drops the `id` key from the transmitted body. -/
def create_response12 (info : CreatedInfo12) : Item12 :=
  { name := info.name, price := info.price }

/-- Serialization of an `Item12` body as field-name/value pairs. -/
def serializeItem12 (i : Item12) : List (String × JsonValue) :=
  [("name", JsonValue.jstr i.name), ("price", JsonValue.jnum i.price)]

/-- Snapshot 12 `delete_item`: 204-no-content on a present id and removal of
the key, `HTTPException(404, "Item not found")` on an absent id with the
state untouched. -/
def delete_item (item_id : Nat) (s : State12) :
    Except HTTPException Unit × State12 :=
  if dbContains s.items_db item_id then
    (Except.ok (), { s with items_db := dbErase s.items_db item_id })
  else
    (Except.error { status_code := 404, detail := "Item not found" }, s)

/-- The `status_code=status.HTTP_204_NO_CONTENT` of the snapshot-12 delete route. -/
def delete_item12_status : Nat := 204

/-- Outcome of the snapshot-12 update handler: either the bare
`Response(status_code=304)` or the updated record returned as the body. -/
inductive UpdateResult where
  | notModified
  | updated (item : Item12)
deriving DecidableEq, Repr

/-- The HTTP status carried by each snapshot-12 update outcome. -/
def updateStatus : UpdateResult → Nat
  | UpdateResult.notModified => 304
  | UpdateResult.updated _ => 200

/-- The body carried by each snapshot-12 update outcome (304 has none). -/
def updateBody : UpdateResult → Option Item12
  | UpdateResult.notModified => none
  | UpdateResult.updated it => some it

/-- Snapshot 12 `update_item`: 404 and no mutation when `item_id` is absent;
when the stored dict equals `item.model_dump()`, a 304 response and no
mutation; otherwise full replacement `items_db[item_id] = item.model_dump()`
and the freshly stored record as the body.  The final `KeyError` branch
models the re-read `items_db[item_id]` after the assignment; it is
provably unreachable. -/
def update_item (item_id : Nat) (item : Item12) (s : State12) :
    Except HTTPException UpdateResult × State12 :=
  if dbContains s.items_db item_id then
    if dbGet s.items_db item_id = some item then
      (Except.ok UpdateResult.notModified, s)
    else
      let db2 := dbInsert s.items_db item_id item
      match dbGet db2 item_id with
      | some stored =>
          (Except.ok (UpdateResult.updated stored),
           { s with items_db := db2 })
      | none =>
          (Except.error { status_code := 500, detail := "KeyError" },
           { s with items_db := db2 })
  else
    (Except.error { status_code := 404, detail := "Item not found" }, s)

/-- One request against the snapshot-12 application state. -/
inductive Op12 where
  | create (item : Item12)
  | delete (item_id : Nat)
  | update (item_id : Nat) (item : Item12)
deriving DecidableEq, Repr

/-- The state transition of one snapshot-12 request. -/
def step12 (s : State12) : Op12 → State12
  | Op12.create item => (create_item item s).2
  | Op12.delete item_id => (delete_item item_id s).2
  | Op12.update item_id item => (update_item item_id item s).2

/-- Running a sequence of snapshot-12 requests. -/
def run12 (s : State12) (ops : List Op12) : State12 :=
  ops.foldl step12 s

/-- The identifiers assigned by the creates of a request sequence, in order. -/
def assignedIds (s : State12) : List Op12 → List Nat
  | [] => []
  | op :: rest =>
      match op with
      | Op12.create item =>
          s.item_next_id :: assignedIds (step12 s (Op12.create item)) rest
      | _ => assignedIds (step12 s op) rest

/-- Number of create requests in a sequence (creates always succeed). -/
def countCreates : List Op12 → Nat
  | [] => 0
  | Op12.create _ :: rest => countCreates rest + 1
  | _ :: rest => countCreates rest

/-- Number of delete requests that succeed when the sequence is run from `s`. -/
def countSuccessfulDeletes (s : State12) : List Op12 → Nat
  | [] => 0
  | op :: rest =>
      (match op with
       | Op12.delete item_id => if dbContains s.items_db item_id then 1 else 0
       | _ => 0) + countSuccessfulDeletes (step12 s op) rest

/-- The records the store would list, in insertion (ascending-id) order:
the contents of `items_db`. -/
def listItems12 (s : State12) : List (Nat × Item12) := s.items_db

/-! ## Snapshot 06: length-based id create and read, richer Item model -/

/-- The pydantic `Item` model of snapshot 06 after validation: `name` and
`price` required, `description`, `tax` optional, `tags` a string list. -/
structure Item06 where
  name : String
  description : Option String
  price : Rat
  tax : Option Rat
  tags : List String
deriving DecidableEq, Repr

/-- The fake database of snapshot 06, initially empty. -/
def Db06 := List (Nat × Item06)

/-- The dict `{"item_id": item_id, **items_db[item_id]}` returned by the
snapshot-06 create and read handlers. -/
structure Resp06 where
  item_id : Nat
  record : Item06
deriving DecidableEq, Repr

/-- Serialization of an `Item06` as field-name/value pairs, in declaration
order. -/
def serializeItem06 (i : Item06) : List (String × JsonValue) :=
  [("name", JsonValue.jstr i.name),
   ("description",
     match i.description with
     | none => JsonValue.jnull
     | some d => JsonValue.jstr d),
   ("price", JsonValue.jnum i.price),
   ("tax",
     match i.tax with
     | none => JsonValue.jnull
     | some t => JsonValue.jnum t),
   ("tags", JsonValue.jarr (i.tags.map JsonValue.jstr))]

/-- Serialization of the snapshot-06 response dict: the key is spelled
`item_id`, followed by the stored record flattened in. -/
def serializeResp06 (r : Resp06) : List (String × JsonValue) :=
  ("item_id", JsonValue.jint r.item_id) :: serializeItem06 r.record

/-- Snapshot 06 `create_item`: `item_id = len(items_db) + 1`, stores the
dumped model there, then returns `{"item_id": item_id, **items_db[item_id]}`.
The error branch models the `KeyError` of the re-read; it is provably
unreachable. -/
def create_item06 (item : Item06) (db : Db06) :
    Except HTTPException (Resp06 × Db06) :=
  let item_id := List.length db + 1
  let db2 := dbInsert db item_id item
  match dbGet db2 item_id with
  | some stored => Except.ok ({ item_id := item_id, record := stored }, db2)
  | none => Except.error { status_code := 500, detail := "KeyError" }

/-- The `status_code=201` of the snapshot-06 create route. -/
def create_item06_status : Nat := 201

/-- Snapshot 06 `read_item`: `HTTPException(404, "Item not found")` when the
id is absent, otherwise `{"item_id": item_id, **items_db[item_id]}`.
No mutation (the handler only reads `items_db`). -/
def read_item06 (item_id : Nat) (db : Db06) : Except HTTPException Resp06 :=
  if dbContains db item_id then
    match dbGet db item_id with
    | some stored => Except.ok { item_id := item_id, record := stored }
    | none => Except.error { status_code := 500, detail := "KeyError" }
  else
    Except.error { status_code := 404, detail := "Item not found" }

/-! ## Snapshot 10: response-model projection and the username-keyed user store -/

/-- The `UserIn` input model of snapshot 10 (password included). -/
structure UserIn where
  username : String
  password : String
  email : String
  full_name : Option String
deriving DecidableEq, Repr

/-- The `UserOut` response model of snapshot 10 (no password field). -/
structure UserOut where
  username : String
  email : String
  full_name : Option String
deriving DecidableEq, Repr

/-- The internal item model of snapshot 10, with the internal-only fields
`owner_id` and `secret_code`. -/
structure ItemInternal where
  name : String
  price : Rat
  owner_id : Nat
  secret_code : String
deriving DecidableEq, Repr

/-- The `ItemPublic` response model of snapshot 10: only `name` and `price`. -/
structure ItemPublic where
  name : String
  price : Rat
deriving DecidableEq, Repr

/-- The `response_model=ItemPublic` conversion: the public model is built
from the matching declared fields only; `owner_id` and `secret_code` have no
counterpart and are dropped. -/
def itemToPublic (i : ItemInternal) : ItemPublic :=
  { name := i.name, price := i.price }

/-- The `response_model=UserOut` conversion: built from the matching declared
fields only; `password` has no counterpart and is dropped. -/
def userToOut (u : UserIn) : UserOut :=
  { username := u.username, email := u.email, full_name := u.full_name }

/-- Serialization of an `ItemPublic` body as field-name/value pairs. -/
def serializeItemPublic (p : ItemPublic) : List (String × JsonValue) :=
  [("name", JsonValue.jstr p.name), ("price", JsonValue.jnum p.price)]

/-- Serialization of a `UserOut` body as field-name/value pairs. -/
def serializeUserOut (u : UserOut) : List (String × JsonValue) :=
  [("username", JsonValue.jstr u.username),
   ("email", JsonValue.jstr u.email),
   ("full_name",
     match u.full_name with
     | none => JsonValue.jnull
     | some n => JsonValue.jstr n)]

/-- The internal-only field names declared by the snapshot-10 record types. -/
def internalOnlyFields : List String := ["password", "owner_id", "secret_code"]

/-- The `fake_items_db` of snapshot 10, with its seeded internal items. -/
def fake_items_db : List (Nat × ItemInternal) :=
  [(1, { name := "Keyboard", price := 75, owner_id := 1, secret_code := "abc" }),
   (2, { name := "Mouse", price := 51 / 2, owner_id := 1, secret_code := "def" }),
   (3, { name := "Monitor", price := 300, owner_id := 2, secret_code := "ghi" })]

/-- The user store of snapshot 10: a dict keyed by the caller-chosen
username, initially empty. -/
def UDb10 := List (String × UserIn)

/-- Snapshot 10 `create_user`: stores the full `UserIn` (password included)
at key `user.username` — overwriting any existing entry — and returns the
user, filtered through `response_model=UserOut`.  No existence check, no
error path. -/
def create_user (user : UserIn) (udb : UDb10) : UserOut × UDb10 :=
  (userToOut user, dbInsert udb user.username user)

/-- The `status_code=201` of the snapshot-10 user-creation route. -/
def create_user_status : Nat := 201

/-- Snapshot 10 `read_user`: 404 when the username is absent, otherwise the
stored `UserIn` filtered through `response_model=UserOut`. -/
def read_user (username : String) (udb : UDb10) : Except HTTPException UserOut :=
  if dbContains udb username then
    match dbGet udb username with
    | some u => Except.ok (userToOut u)
    | none => Except.error { status_code := 500, detail := "KeyError" }
  else
    Except.error { status_code := 404, detail := "User not found" }

/-- Snapshot 10 `read_items`: all stored internal items, each filtered
through `response_model=List[ItemPublic]`. -/
def read_items (db : List (Nat × ItemInternal)) : List ItemPublic :=
  (db.map Prod.snd).map itemToPublic

/-- Snapshot 10 `read_single_item`: 404 when the id is absent, otherwise the
stored internal item filtered through `response_model=ItemPublic`. -/
def read_single_item (item_id : Nat) (db : List (Nat × ItemInternal)) :
    Except HTTPException ItemPublic :=
  if dbContains db item_id then
    match dbGet db item_id with
    | some it => Except.ok (itemToPublic it)
    | none => Except.error { status_code := 500, detail := "KeyError" }
  else
    Except.error { status_code := 404, detail := "Item not found" }

/-! ## Auxiliary definitions for the statements -/

/-- Whether a handler outcome is a success (no raised `HTTPException`). -/
def isOkE {ε α : Type} : Except ε α → Bool
  | Except.ok _ => true
  | Except.error _ => false

/-- The sample payload of the spec scenario, post-validation:
name Keyboard, price 75.0, the optional fields at their defaults. -/
def kbd06 : Item06 :=
  { name := "Keyboard", description := none, price := 75, tax := none,
    tags := [] }

/-- A sample stored user, for concrete instances. -/
def userAliceOld : UserIn :=
  { username := "alice", password := "pw1", email := "alice@example.com",
    full_name := none }

/-- A second sample user with the same username and a different password. -/
def userAliceNew : UserIn :=
  { username := "alice", password := "pw2", email := "alice@example.com",
    full_name := some "Alice" }

/-- The key invariant of the snapshot-12 state: every key of `items_db` is
below `item_next_id`. -/
def Inv12 (s : State12) : Prop :=
  ∀ k, dbContains s.items_db k = true → k < s.item_next_id

/-! ## Association-list (Python dict) lemmas -/

theorem dbGet_dbInsert_self {κ α : Type} [DecidableEq κ]
    (db : List (κ × α)) (k : κ) (v : α) :
    dbGet (dbInsert db k v) k = some v := by
  induction db with
  | nil => simp [dbInsert, dbGet]
  | cons hd tl ih =>
      obtain ⟨k2, v2⟩ := hd
      by_cases h : k2 = k
      · simp [dbInsert, h, dbGet]
      · simp [dbInsert, h, dbGet, ih]

theorem dbContains_eq_isSome {κ α : Type} [DecidableEq κ]
    (db : List (κ × α)) (k : κ) :
    dbContains db k = (dbGet db k).isSome := by
  induction db with
  | nil => simp [dbContains, dbGet]
  | cons hd tl ih =>
      obtain ⟨k2, v2⟩ := hd
      by_cases h : k2 = k <;> simp [dbContains, dbGet, h, ih]

theorem dbContains_dbInsert_iff {κ α : Type} [DecidableEq κ]
    (db : List (κ × α)) (k k2 : κ) (v : α) :
    dbContains (dbInsert db k v) k2 = true ↔
      k = k2 ∨ dbContains db k2 = true := by
  induction db with
  | nil =>
      by_cases h : k = k2 <;> simp [dbInsert, dbContains, h]
  | cons hd tl ih =>
      obtain ⟨k3, v3⟩ := hd
      by_cases h3 : k3 = k
      · subst h3
        by_cases h : k3 = k2 <;> simp [dbInsert, dbContains, h]
      · by_cases h : k3 = k2
        · subst h
          simp [dbInsert, h3, dbContains]
        · simp [dbInsert, dbContains, h3, h, ih]

theorem dbContains_dbErase_imp {κ α : Type} [DecidableEq κ]
    (db : List (κ × α)) (k k2 : κ)
    (h : dbContains (dbErase db k) k2 = true) :
    dbContains db k2 = true := by
  induction db with
  | nil => simp [dbErase, dbContains] at h
  | cons hd tl ih =>
      obtain ⟨k3, v3⟩ := hd
      by_cases h3 : k3 = k
      · by_cases h2 : k3 = k2 <;>
          simp_all [dbErase, dbContains]
      · by_cases h2 : k3 = k2 <;>
          simp_all [dbErase, dbContains]

theorem dbInsert_length_of_contains {κ α : Type} [DecidableEq κ]
    (db : List (κ × α)) (k : κ) (v : α)
    (h : dbContains db k = true) :
    List.length (dbInsert db k v) = List.length db := by
  induction db with
  | nil => simp [dbContains] at h
  | cons hd tl ih =>
      obtain ⟨k2, v2⟩ := hd
      by_cases h2 : k2 = k
      · simp [dbInsert, h2]
      · simp only [dbContains, if_neg h2] at h
        simp [dbInsert, h2, ih h]

theorem dbInsert_length_of_not_contains {κ α : Type} [DecidableEq κ]
    (db : List (κ × α)) (k : κ) (v : α)
    (h : dbContains db k = false) :
    List.length (dbInsert db k v) = List.length db + 1 := by
  induction db with
  | nil => simp [dbInsert]
  | cons hd tl ih =>
      obtain ⟨k2, v2⟩ := hd
      by_cases h2 : k2 = k
      · simp [dbContains, h2] at h
      · simp only [dbContains, if_neg h2] at h
        simp [dbInsert, h2, ih h]

theorem dbErase_length_of_contains {κ α : Type} [DecidableEq κ]
    (db : List (κ × α)) (k : κ)
    (h : dbContains db k = true) :
    List.length (dbErase db k) + 1 = List.length db := by
  induction db with
  | nil => simp [dbContains] at h
  | cons hd tl ih =>
      obtain ⟨k2, v2⟩ := hd
      by_cases h2 : k2 = k
      · simp [dbErase, h2]
      · simp only [dbContains, if_neg h2] at h
        simp [dbErase, h2, ih h]

/-! ## Snapshot-12 state invariant and request-sequence lemmas -/

theorem inv12_init : Inv12 initState12 := by
  intro k h
  have h3 : initState12.item_next_id = 3 := rfl
  rw [h3]
  simp only [initState12, dbContains] at h
  split at h
  · rename_i h1
    omega
  · split at h
    · rename_i h2
      omega
    · simp at h

theorem inv12_step (s : State12) (op : Op12) (h : Inv12 s) :
    Inv12 (step12 s op) := by
  cases op with
  | create item =>
      intro k hk
      simp only [step12, create_item] at hk ⊢
      rcases (dbContains_dbInsert_iff s.items_db s.item_next_id k item).mp hk
        with heq | hold
      · omega
      · exact Nat.lt_succ_of_lt (h k hold)
  | delete item_id =>
      intro k hk
      cases hc : dbContains s.items_db item_id with
      | false =>
          simp [step12, delete_item, hc] at hk ⊢
          exact h k hk
      | true =>
          simp [step12, delete_item, hc] at hk ⊢
          exact h k (dbContains_dbErase_imp s.items_db item_id k hk)
  | update item_id item =>
      intro k hk
      cases hc : dbContains s.items_db item_id with
      | false =>
          simp [step12, update_item, hc] at hk ⊢
          exact h k hk
      | true =>
          by_cases hget : dbGet s.items_db item_id = some item
          · simp [step12, update_item, hc, hget] at hk ⊢
            exact h k hk
          · simp [step12, update_item, hc, hget, dbGet_dbInsert_self]
              at hk ⊢
            rcases (dbContains_dbInsert_iff s.items_db item_id k item).mp hk
              with heq | hold
            · exact heq ▸ h item_id hc
            · exact h k hold

theorem next_le_step (s : State12) (op : Op12) :
    s.item_next_id ≤ (step12 s op).item_next_id := by
  cases op with
  | create item => simp [step12, create_item]
  | delete item_id =>
      simp only [step12, delete_item]
      split <;> simp
  | update item_id item =>
      simp only [step12, update_item]
      split
      · split
        · simp
        · split <;> simp
      · simp

theorem next_le_run (ops : List Op12) :
    ∀ s : State12, s.item_next_id ≤ (run12 s ops).item_next_id := by
  induction ops with
  | nil => intro s; simp [run12]
  | cons op rest ih =>
      intro s
      have h1 := next_le_step s op
      have h2 := ih (step12 s op)
      simp only [run12, List.foldl_cons] at h2 ⊢
      omega

theorem inv12_run (ops : List Op12) :
    ∀ s : State12, Inv12 s → Inv12 (run12 s ops) := by
  induction ops with
  | nil => intro s h; simpa [run12] using h
  | cons op rest ih =>
      intro s h
      simp only [run12, List.foldl_cons]
      exact ih (step12 s op) (inv12_step s op h)

theorem run12_append (s : State12) (l1 l2 : List Op12) :
    run12 s (l1 ++ l2) = run12 (run12 s l1) l2 := by
  simp [run12, List.foldl_append]

theorem mem_assignedIds_ge (ops : List Op12) :
    ∀ (s : State12) (i : Nat), i ∈ assignedIds s ops →
      s.item_next_id ≤ i := by
  induction ops with
  | nil => intro s i h; simp [assignedIds] at h
  | cons op rest ih =>
      intro s i h
      cases op with
      | create item =>
          simp only [assignedIds, List.mem_cons] at h
          rcases h with heq | hmem
          · omega
          · have := ih (step12 s (Op12.create item)) i hmem
            have hstep : (step12 s (Op12.create item)).item_next_id
                = s.item_next_id + 1 := by
              simp [step12, create_item]
            omega
      | delete item_id =>
          simp only [assignedIds] at h
          have := ih (step12 s (Op12.delete item_id)) i h
          have hle := next_le_step s (Op12.delete item_id)
          omega
      | update item_id item =>
          simp only [assignedIds] at h
          have := ih (step12 s (Op12.update item_id item)) i h
          have hle := next_le_step s (Op12.update item_id item)
          omega

theorem pairwise_assignedIds (ops : List Op12) :
    ∀ s : State12, List.Pairwise (fun a b => a < b) (assignedIds s ops) := by
  induction ops with
  | nil => intro s; simp [assignedIds]
  | cons op rest ih =>
      intro s
      cases op with
      | create item =>
          simp only [assignedIds]
          refine List.Pairwise.cons ?_ (ih (step12 s (Op12.create item)))
          intro b hb
          have := mem_assignedIds_ge rest (step12 s (Op12.create item)) b hb
          have hstep : (step12 s (Op12.create item)).item_next_id
              = s.item_next_id + 1 := by
            simp [step12, create_item]
          omega
      | delete item_id =>
          simpa [assignedIds] using ih (step12 s (Op12.delete item_id))
      | update item_id item =>
          simpa [assignedIds] using ih (step12 s (Op12.update item_id item))

theorem length_run12 (ops : List Op12) :
    ∀ s : State12, Inv12 s →
      List.length (run12 s ops).items_db + countSuccessfulDeletes s ops
        = List.length s.items_db + countCreates ops := by
  induction ops with
  | nil => intro s _; simp [run12, countSuccessfulDeletes, countCreates]
  | cons op rest ih =>
      intro s hInv
      cases op with
      | create item =>
          have hfresh : dbContains s.items_db s.item_next_id = false := by
            cases hc : dbContains s.items_db s.item_next_id
            · rfl
            · exact absurd (hInv s.item_next_id hc) (lt_irrefl _)
          have hlen : List.length (step12 s (Op12.create item)).items_db
              = List.length s.items_db + 1 := by
            simp only [step12, create_item]
            exact dbInsert_length_of_not_contains s.items_db s.item_next_id
              item hfresh
          have := ih (step12 s (Op12.create item))
            (inv12_step s (Op12.create item) hInv)
          simp only [run12, List.foldl_cons, countSuccessfulDeletes,
            countCreates] at this ⊢
          omega
      | delete item_id =>
          cases hc : dbContains s.items_db item_id with
          | false =>
              have hsame : step12 s (Op12.delete item_id) = s := by
                simp [step12, delete_item, hc]
              have hrec := ih s hInv
              simp only [run12] at hrec
              simp [run12, List.foldl_cons, countSuccessfulDeletes,
                countCreates, hc, hsame]
              omega
          | true =>
              have hrec := ih (step12 s (Op12.delete item_id))
                (inv12_step s (Op12.delete item_id) hInv)
              have hstep : (step12 s (Op12.delete item_id)).items_db
                  = dbErase s.items_db item_id := by
                simp [step12, delete_item, hc]
              have hlen := dbErase_length_of_contains s.items_db item_id hc
              rw [hstep] at hrec
              simp only [run12, List.foldl_cons] at hrec ⊢
              simp [countSuccessfulDeletes, countCreates, hc]
              omega
      | update item_id item =>
          have := ih (step12 s (Op12.update item_id item))
            (inv12_step s (Op12.update item_id item) hInv)
          have hlen : List.length (step12 s (Op12.update item_id item)).items_db
              = List.length s.items_db := by
            simp only [step12, update_item]
            split
            · rename_i hcont
              split
              · rfl
              · split <;>
                  exact dbInsert_length_of_contains s.items_db item_id item hcont
            · rfl
          simp only [run12, List.foldl_cons, countSuccessfulDeletes,
            countCreates] at this ⊢
          omega

/-! ## The claims -/

/-- C1, corrected.  The create handlers respond 201; snapshot 06 assigns id
`len(items_db) + 1` (id 1 on an empty store) and its body carries the
assigned id under the key `item_id` followed by the record fields; in
snapshot 12 the `response_model=Item` projection keeps only `name` and
`price`, and the assigned id `item_next_id` is not part of the transmitted
body. -/
theorem create_response_shape (x : Item06) (y : Item12) (s : State12) :
    create_item06_status = 201
    ∧ create_item06 x [] = Except.ok ({ item_id := 1, record := x }, [(1, x)])
    ∧ (serializeResp06 { item_id := 1, record := x }).map Prod.fst
        = ["item_id", "name", "description", "price", "tax", "tags"]
    ∧ create_item12_status = 201
    ∧ (create_item y s).1.id = s.item_next_id
    ∧ create_response12 (create_item y s).1 = y
    ∧ (serializeItem12 (create_response12 (create_item y s).1)).map Prod.fst
        = ["name", "price"] :=
  ⟨rfl, rfl, rfl, rfl, rfl, rfl, rfl⟩

/-- C1, counterexample.  Creating the {name: Keyboard, price: 75.0} payload
into an empty snapshot-06 store does assign id 1, but the response body
holds the id under the key `item_id`, not `id`; and the snapshot-12 create
response body contains no id field at all, so no create response matches
the claimed shape {id: 1, name: Keyboard, price: 75.0}. -/
theorem create_response_id_missing :
    create_item06 kbd06 []
      = Except.ok ({ item_id := 1, record := kbd06 }, [(1, kbd06)])
    ∧ ¬ "id" ∈ (serializeResp06 { item_id := 1, record := kbd06 }).map Prod.fst
    ∧ ¬ "id" ∈ (serializeItem12 (create_response12
          (create_item { name := "Keyboard", price := 75 } initState12).1)).map
          Prod.fst := by
  refine ⟨rfl, ?_, ?_⟩ <;> decide

/-- C2, confirmed.  Ids assigned by creates along any request sequence from
the snapshot-12 initial state are pairwise strictly increasing positive
integers, and an id whose delete succeeded is never assigned by any later
create. -/
theorem assigned_ids_monotone (ops ops1 ops2 : List Op12) (d : Nat) :
    List.Pairwise (fun a b => a < b) (assignedIds initState12 ops)
    ∧ (∀ i ∈ assignedIds initState12 ops, 0 < i)
    ∧ (ops = ops1 ++ Op12.delete d :: ops2 →
        dbContains (run12 initState12 ops1).items_db d = true →
        ¬ d ∈ assignedIds (run12 initState12 (ops1 ++ [Op12.delete d])) ops2) := by
  refine ⟨pairwise_assignedIds ops initState12, ?_, ?_⟩
  · intro i hi
    have := mem_assignedIds_ge ops initState12 i hi
    have h3 : initState12.item_next_id = 3 := rfl
    omega
  · intro heq hcont hmem
    have hinv : Inv12 (run12 initState12 ops1) :=
      inv12_run ops1 initState12 inv12_init
    have hd : d < (run12 initState12 ops1).item_next_id := hinv d hcont
    have hrun : run12 initState12 (ops1 ++ [Op12.delete d])
        = step12 (run12 initState12 ops1) (Op12.delete d) := by
      rw [run12_append]
      rfl
    have hge := mem_assignedIds_ge ops2
      (run12 initState12 (ops1 ++ [Op12.delete d])) d hmem
    rw [hrun] at hge
    have hnext := next_le_step (run12 initState12 ops1) (Op12.delete d)
    omega

/-- C2 witness: deleting seeded id 1 and then creating yields id 3, so id 1
is not reassigned. -/
theorem assigned_ids_monotone_inst :
    ¬ (1 : Nat) ∈ assignedIds (run12 initState12 [Op12.delete 1])
        [Op12.create { name := "A", price := 1 }] :=
  (assigned_ids_monotone
      [Op12.delete 1, Op12.create { name := "A", price := 1 }]
      [] [Op12.create { name := "A", price := 1 }] 1).2.2 rfl rfl

/-- C3, corrected.  Along any request sequence from the snapshot-12 initial
state, the listed-record count equals the seeded size 2 plus the number of
creates minus the number of successful deletes (stated additively). -/
theorem list_length_balance (ops : List Op12) :
    List.length (listItems12 (run12 initState12 ops))
        + countSuccessfulDeletes initState12 ops
      = 2 + countCreates ops := by
  have h := length_run12 ops initState12 inv12_init
  have h2 : List.length initState12.items_db = 2 := rfl
  rw [h2] at h
  exact h

/-- C3, counterexample.  The snapshot-12 store is seeded with two records,
so before any operation the store already lists 2 records while
creates minus successful deletes is 0. -/
theorem list_length_balance_seeded :
    ¬ List.length (listItems12 (run12 initState12 []))
        = countCreates ([] : List Op12)
            - countSuccessfulDeletes initState12 [] := by
  decide

/-- C4, confirmed.  Delete and update (snapshot 12) and read (snapshot 06)
succeed exactly when the id is a key of the mapping; on an absent id each
raises HTTPException 404 with detail Item not found and returns the state
exactly as it was, so a failing operation has no effect. -/
theorem notfound_exact_and_pure (item_id : Nat) (s : State12) (y : Item12)
    (db : Db06) :
    (isOkE (delete_item item_id s).1 = dbContains s.items_db item_id
      ∧ (dbContains s.items_db item_id = false →
          delete_item item_id s
            = (Except.error { status_code := 404, detail := "Item not found" },
               s)))
    ∧ (isOkE (update_item item_id y s).1 = dbContains s.items_db item_id
      ∧ (dbContains s.items_db item_id = false →
          update_item item_id y s
            = (Except.error { status_code := 404, detail := "Item not found" },
               s)))
    ∧ (isOkE (read_item06 item_id db) = dbContains db item_id
      ∧ (dbContains db item_id = false →
          read_item06 item_id db
            = Except.error { status_code := 404, detail := "Item not found" })) := by
  refine ⟨⟨?_, ?_⟩, ⟨?_, ?_⟩, ⟨?_, ?_⟩⟩
  · cases hc : dbContains s.items_db item_id <;>
      simp [delete_item, hc, isOkE]
  · intro hc
    simp [delete_item, hc]
  · cases hc : dbContains s.items_db item_id with
    | false => simp [update_item, hc, isOkE]
    | true =>
        by_cases hget : dbGet s.items_db item_id = some y
        · simp [update_item, hc, hget, isOkE]
        · simp [update_item, hc, hget, dbGet_dbInsert_self, isOkE]
  · intro hc
    simp [update_item, hc]
  · cases hc : dbContains db item_id with
    | false => simp [read_item06, hc, isOkE]
    | true =>
        have hsome : (dbGet db item_id).isSome = true := by
          rw [← dbContains_eq_isSome]
          exact hc
        rcases hg : dbGet db item_id with _ | v
        · rw [hg] at hsome
          simp at hsome
        · simp [read_item06, hc, hg, isOkE]
  · intro hc
    simp [read_item06, hc]

/-- C4 witness: deleting the absent id 5 from the initial snapshot-12 state
fails with 404 and leaves the state untouched. -/
theorem notfound_exact_and_pure_inst :
    delete_item 5 initState12
      = (Except.error { status_code := 404, detail := "Item not found" },
         initState12) :=
  (notfound_exact_and_pure 5 initState12 { name := "X", price := 1 } []).1.2 rfl

/-- C5, confirmed.  After an update of a present id with payload y, the
mapping holds exactly y at that id, whatever record was stored before:
full replacement, including the 304 branch where the stored record already
equals y. -/
theorem update_full_replacement (item_id : Nat) (y : Item12) (s : State12)
    (h : dbContains s.items_db item_id = true) :
    dbGet (update_item item_id y s).2.items_db item_id = some y := by
  by_cases hget : dbGet s.items_db item_id = some y
  · simp [update_item, h, hget]
  · simp [update_item, h, hget, dbGet_dbInsert_self]

/-- C5 witness: replacing seeded id 1 (a Laptop) with a Mouse record leaves
exactly the Mouse record at id 1. -/
theorem update_full_replacement_inst :
    dbGet (update_item 1 { name := "Mouse", price := 25 }
        initState12).2.items_db 1
      = some { name := "Mouse", price := 25 } :=
  update_full_replacement 1 { name := "Mouse", price := 25 } initState12 rfl

/-- C6, confirmed.  On every store, the snapshot-06 create succeeds (returns
ok, never an error), assigns id `len(db) + 1`, and reading that id back from
the resulting store returns a record equal to the validated payload. -/
theorem create_read_roundtrip (x : Item06) (db : Db06) :
    create_item06 x db
      = Except.ok ({ item_id := List.length db + 1, record := x },
          dbInsert db (List.length db + 1) x)
    ∧ read_item06 (List.length db + 1) (dbInsert db (List.length db + 1) x)
      = Except.ok { item_id := List.length db + 1, record := x } := by
  have hcont : dbContains (dbInsert db (List.length db + 1) x)
      (List.length db + 1) = true := by
    rw [dbContains_eq_isSome, dbGet_dbInsert_self]
    rfl
  constructor
  · simp [create_item06, dbGet_dbInsert_self]
  · simp [read_item06, hcont, dbGet_dbInsert_self]

/-- C7, confirmed.  Every snapshot-10 operation that returns a record does
so through its declared public response model, and the serialized output of
those models never carries any of the internal-only field names password,
owner_id, secret_code, for all stored values. -/
theorem projection_allowlist :
    (∀ (item_id : Nat) (db : List (Nat × ItemInternal)) (p : ItemPublic),
        read_single_item item_id db = Except.ok p →
        ∀ f ∈ internalOnlyFields,
          ¬ f ∈ (serializeItemPublic p).map Prod.fst)
    ∧ (∀ db : List (Nat × ItemInternal), ∀ p ∈ read_items db,
        ∀ f ∈ internalOnlyFields,
          ¬ f ∈ (serializeItemPublic p).map Prod.fst)
    ∧ (∀ (u : UserIn) (udb : UDb10),
        ∀ f ∈ internalOnlyFields,
          ¬ f ∈ (serializeUserOut (create_user u udb).1).map Prod.fst)
    ∧ (∀ (username : String) (udb : UDb10) (o : UserOut),
        read_user username udb = Except.ok o →
        ∀ f ∈ internalOnlyFields,
          ¬ f ∈ (serializeUserOut o).map Prod.fst) := by
  have hpub : ∀ p : ItemPublic,
      (serializeItemPublic p).map Prod.fst = ["name", "price"] :=
    fun _ => rfl
  have hout : ∀ o : UserOut,
      (serializeUserOut o).map Prod.fst
        = ["username", "email", "full_name"] :=
    fun _ => rfl
  have hint : ∀ f ∈ internalOnlyFields,
      ¬ f ∈ (["name", "price"] : List String)
      ∧ ¬ f ∈ (["username", "email", "full_name"] : List String) := by
    decide
  refine ⟨?_, ?_, ?_, ?_⟩
  · intro _ _ p _ f hf
    rw [hpub p]
    exact (hint f hf).1
  · intro _ p _ f hf
    rw [hpub p]
    exact (hint f hf).1
  · intro u udb f hf
    rw [hout (create_user u udb).1]
    exact (hint f hf).2
  · intro _ _ o _ f hf
    rw [hout o]
    exact (hint f hf).2

/-- C7 witness: reading stored item 1 yields the public projection, whose
serialized body has no secret_code key. -/
theorem projection_allowlist_inst :
    ¬ "secret_code" ∈ (serializeItemPublic
        { name := "Keyboard", price := 75 }).map Prod.fst :=
  projection_allowlist.1 1 fake_items_db { name := "Keyboard", price := 75 }
    rfl "secret_code" (by decide)

/-- C8, confirmed.  Updating a present id with a payload equal to the stored
record returns the bodyless 304 outcome and the state — mapping and
next-id counter — completely unchanged. -/
theorem update_unchanged_304 (item_id : Nat) (y : Item12) (s : State12)
    (h : dbGet s.items_db item_id = some y) :
    update_item item_id y s = (Except.ok UpdateResult.notModified, s)
    ∧ updateStatus UpdateResult.notModified = 304
    ∧ updateBody UpdateResult.notModified = none := by
  have hc : dbContains s.items_db item_id = true := by
    rw [dbContains_eq_isSome, h]
    rfl
  exact ⟨by simp [update_item, hc, h], rfl, rfl⟩

/-- C8 witness: re-sending the stored Laptop record for id 1 yields the 304
outcome with the initial state unchanged. -/
theorem update_unchanged_304_inst :
    update_item 1 { name := "Laptop", price := 1200 } initState12
      = (Except.ok UpdateResult.notModified, initState12) :=
  (update_unchanged_304 1 { name := "Laptop", price := 1200 } initState12
    rfl).1

/-- C10, confirmed.  Creating a user whose username is already a key of the
user store does not fail: it responds 201 with the filtered user, stores the
new payload (password included) at that username, and adds no entry — the
existing record is silently replaced, the store being keyed by the
caller-chosen username. -/
theorem create_user_overwrites (u : UserIn) (udb : UDb10)
    (h : dbContains udb u.username = true) :
    create_user_status = 201
    ∧ (create_user u udb).1 = userToOut u
    ∧ dbGet (create_user u udb).2 u.username = some u
    ∧ List.length (create_user u udb).2 = List.length udb := by
  refine ⟨rfl, rfl, ?_, ?_⟩
  · simp [create_user, dbGet_dbInsert_self]
  · simp only [create_user]
    exact dbInsert_length_of_contains udb u.username u h

/-- C10 witness: re-creating alice with a new password replaces the stored
record and leaves the store at one entry. -/
theorem create_user_overwrites_inst :
    create_user_status = 201
    ∧ (create_user userAliceNew [("alice", userAliceOld)]).1
        = userToOut userAliceNew
    ∧ dbGet (create_user userAliceNew [("alice", userAliceOld)]).2 "alice"
        = some userAliceNew
    ∧ List.length (create_user userAliceNew [("alice", userAliceOld)]).2
        = 1 :=
  create_user_overwrites userAliceNew [("alice", userAliceOld)] rfl

end ServerNotes
